import Mathlib

/-!
Verification development for the oozie-to-airflow workflow compiler.

The definitions below are shallow embeddings of the Python sources of the
repository (utils/file_archive_extractors.py, utils/prepare_extractors.py,
mappers/prepare_decorator_mapper.py, o2a/mappers/distcp_mapper.py,
converter/oozie_converter.py).  Paths are modelled as lists of characters,
Python dictionaries as association lists, and code that can raise an
exception returns `Except` or reports the error next to the state it
mutated.  Components of the repository whose defining file is not part of
the sources under study are modelled from the specification and marked as
such in their doc comments.
-/

namespace O2A

/-! ## Path utilities (utils/file_archive_extractors.py) -/

/-- Python `path.split(sep)` for a one-character separator and no maxsplit:
splitting the empty string yields one empty segment, and every occurrence
of the separator ends the current segment and starts a new one. -/
def pySplit (sep : Char) : List Char → List (List Char)
  | [] => [[]]
  | c :: rest =>
    if c = sep then [] :: pySplit sep rest
    else (c :: (pySplit sep rest).headD []) :: (pySplit sep rest).tail

theorem pySplit_ne_nil (sep : Char) (l : List Char) : pySplit sep l ≠ [] := by
  cases l with
  | nil => simp [pySplit]
  | cons c rest =>
    unfold pySplit
    by_cases hc : c = sep <;> simp [hc]

theorem pySplit_length (sep : Char) (l : List Char) :
    (pySplit sep l).length = l.count sep + 1 := by
  induction l with
  | nil => simp [pySplit]
  | cons c rest ih =>
    unfold pySplit
    split
    next hc =>
      subst hc
      rw [List.count_cons_self]
      simp only [List.length_cons]
      omega
    next hc =>
      have hs : sep ≠ c := fun hh => hc hh.symm
      rw [List.count_cons_of_ne hs]
      simp only [List.length_cons, List.length_tail]
      omega

theorem pySplit_of_count_zero (sep : Char) (l : List Char) (h : l.count sep = 0) :
    pySplit sep l = [l] := by
  induction l with
  | nil => simp [pySplit]
  | cons c rest ih =>
    by_cases hc : c = sep
    · subst hc
      rw [List.count_cons_self] at h
      exact absurd h (Nat.succ_ne_zero _)
    · have hs : sep ≠ c := fun hh => hc hh.symm
      rw [List.count_cons_of_ne hs] at h
      unfold pySplit
      rw [ih h]
      simp [hc]

/-- Function `split_by_hash_sign` of utils/file_archive_extractors.py: when
the path contains a hash sign it is split on it and more than one hash is an
error; otherwise the path itself is returned as a one-element list. -/
def split_by_hash_sign (path : List Char) : Except String (List (List Char)) :=
  if '#' ∈ path then
    let split_path := pySplit '#' path
    if split_path.length > 2 then
      .error "There should be maximum one hash in the path"
    else .ok split_path
  else .ok [path]

/-- C8: `split_by_hash_sign` returns `[path]` when the path has no hash,
the two-element split when it has exactly one hash, an error when it has two
or more, and any successful result has length one or two. -/
theorem split_by_hash_sign_spec (path : List Char) :
    (path.count '#' = 0 → split_by_hash_sign path = .ok [path]) ∧
    (path.count '#' = 1 →
      split_by_hash_sign path = .ok (pySplit '#' path) ∧
      (pySplit '#' path).length = 2) ∧
    (2 ≤ path.count '#' →
      split_by_hash_sign path =
        .error "There should be maximum one hash in the path") ∧
    (∀ l, split_by_hash_sign path = .ok l → l.length = 1 ∨ l.length = 2) := by
  refine ⟨?_, ?_, ?_, ?_⟩
  · intro h0
    have hmem : '#' ∉ path := by
      intro hmem
      exact absurd (List.count_pos_iff.mpr hmem) (by omega)
    simp [split_by_hash_sign, hmem]
  · intro h1
    have hmem : '#' ∈ path := List.count_pos_iff.mp (by omega)
    have hlen : (pySplit '#' path).length = 2 := by
      rw [pySplit_length, h1]
    refine ⟨?_, hlen⟩
    simp [split_by_hash_sign, hmem, hlen]
  · intro h2
    have hmem : '#' ∈ path := List.count_pos_iff.mp (by omega)
    have hlen : (pySplit '#' path).length > 2 := by
      rw [pySplit_length]; omega
    simp [split_by_hash_sign, hmem, hlen]
  · intro l hl
    by_cases hmem : '#' ∈ path
    · by_cases hlen : (pySplit '#' path).length > 2
      · simp [split_by_hash_sign, hmem, hlen] at hl
      · simp [split_by_hash_sign, hmem, hlen] at hl
        have hpos : (pySplit '#' path).length ≠ 0 := by
          intro hz
          exact pySplit_ne_nil '#' path (List.length_eq_zero.mp hz)
        subst hl
        omega
    · simp [split_by_hash_sign, hmem] at hl
      subst hl
      simp

/-- Witness for C8: a path with exactly one hash is split into its two parts. -/
theorem split_by_hash_sign_spec_witness :
    split_by_hash_sign ['a', '#', 'b'] = .ok (pySplit '#' ['a', '#', 'b']) ∧
    (pySplit '#' ['a', '#', 'b']).length = 2 :=
  (split_by_hash_sign_spec ['a', '#', 'b']).2.1 (by decide)

/-! ## Archive extraction (utils/file_archive_extractors.py) -/

/-- Python dictionary lookup `d[key]`: a missing key raises a KeyError. -/
def dictGet (properties : List (String × List Char)) (key : String) :
    Except String (List Char) :=
  match properties.lookup key with
  | some v => .ok v
  | none => .error ("KeyError: " ++ key)

/-- Function `preprocess_path_to_hdfs`: an absolute path is prefixed with the
`nameNode` property, a relative one with the application path and a slash. -/
def preprocess_path_to_hdfs (path : List Char) (properties : List (String × List Char)) :
    Except String (List Char) :=
  if path.head? = some '/' then
    (dictGet properties "nameNode").map (fun nn => nn ++ path)
  else
    (dictGet properties "oozie.wf.application.path").map (fun ap => ap ++ ('/' :: path))

/-- Field `ArchiveExtractor.ALLOWED_EXTENSIONS`. -/
def ALLOWED_EXTENSIONS : List (List Char) :=
  [['.', 'z', 'i', 'p'], ['.', 'g', 'z'], ['.', 't', 'a', 'r', '.', 'g', 'z'],
   ['.', 't', 'a', 'r'], ['.', 'j', 'a', 'r']]

/-- Method `ArchiveExtractor._check_archive_extensions`: the path is split on
the hash sign and the part before the hash must end with one of the allowed
extensions; otherwise an exception is raised. -/
def check_archive_extensions (oozie_archive_path : List Char) :
    Except String (List (List Char)) :=
  match split_by_hash_sign oozie_archive_path with
  | .error e => .error e
  | .ok split_path =>
    if ALLOWED_EXTENSIONS.any (fun ext => ext.isSuffixOf (split_path.headD [])) then
      .ok split_path
    else .error "The path cannot be accepted as an archive"

/-- Mutable state of an `ArchiveExtractor`: the two parallel path lists. -/
structure ArchiveExtractor where
  archives : List (List Char)
  hdfs_archives : List (List Char)
deriving DecidableEq

/-- Method `ArchiveExtractor.add_archive`: the extension check runs first,
then the path is appended to `archives`, then the hdfs path (whose
computation performs dictionary lookups that can raise) is appended to
`hdfs_archives`.  The result pairs the raised error, if any, with the state
at the moment the exception left the method, matching the in-place mutation
of the Python object. -/
def add_archive (s : ArchiveExtractor) (properties : List (String × List Char))
    (oozie_archive_path : List Char) : Option String × ArchiveExtractor :=
  match check_archive_extensions oozie_archive_path with
  | .error e => (some e, s)
  | .ok _ =>
    let s1 : ArchiveExtractor := { s with archives := s.archives ++ [oozie_archive_path] }
    match preprocess_path_to_hdfs oozie_archive_path properties with
    | .error e => (some e, s1)
    | .ok hdfs => (none, { s1 with hdfs_archives := s1.hdfs_archives ++ [hdfs] })

/-- Dictionary key that `preprocess_path_to_hdfs` reads for the given path. -/
def hdfsKeyFor (path : List Char) : String :=
  if path.head? = some '/' then "nameNode" else "oozie.wf.application.path"

theorem preprocess_ok (path : List Char) (properties : List (String × List Char))
    (hkey : (properties.lookup (hdfsKeyFor path)).isSome) :
    ∃ v, preprocess_path_to_hdfs path properties = .ok v := by
  unfold hdfsKeyFor at hkey
  unfold preprocess_path_to_hdfs dictGet
  by_cases hh : path.head? = some '/'
  · rw [if_pos hh] at hkey
    rw [if_pos hh]
    cases hlk : properties.lookup "nameNode" with
    | none => rw [hlk] at hkey; simp at hkey
    | some v => exact ⟨v ++ path, rfl⟩
  · rw [if_neg hh] at hkey
    rw [if_neg hh]
    cases hlk : properties.lookup "oozie.wf.application.path" with
    | none => rw [hlk] at hkey; simp at hkey
    | some v => exact ⟨v ++ ('/' :: path), rfl⟩

/-- Counterexample to C9 as stated: with an empty properties mapping and the
well-formed archive path /a.zip (no hash, allowed extension) the method still
raises (a KeyError escaping `preprocess_path_to_hdfs`), and it does so after
appending to `archives`, so the two parallel lists are left with different
lengths rather than unchanged. -/
theorem add_archive_counterexample :
    (['/', 'a', '.', 'z', 'i', 'p'].count '#' = 0) ∧
    (ALLOWED_EXTENSIONS.any (fun ext => ext.isSuffixOf ['/', 'a', '.', 'z', 'i', 'p']) = true) ∧
    ((add_archive ⟨[], []⟩ [] ['/', 'a', '.', 'z', 'i', 'p']).1.isSome = true) ∧
    ((add_archive ⟨[], []⟩ [] ['/', 'a', '.', 'z', 'i', 'p']).2.archives =
      [['/', 'a', '.', 'z', 'i', 'p']]) ∧
    ((add_archive ⟨[], []⟩ [] ['/', 'a', '.', 'z', 'i', 'p']).2.hdfs_archives = []) := by
  decide

/-- C9 amended: provided the properties mapping contains the key that
`preprocess_path_to_hdfs` reads for the path, `add_archive` succeeds exactly
when the path has at most one hash and the part before the hash ends in an
allowed extension; on success it appends exactly one entry to each of the
two lists, and on failure it leaves the state unchanged. -/
theorem add_archive_spec (s : ArchiveExtractor) (properties : List (String × List Char))
    (path : List Char) (hkey : (properties.lookup (hdfsKeyFor path)).isSome) :
    ((add_archive s properties path).1 = none ↔
      path.count '#' ≤ 1 ∧
      ALLOWED_EXTENSIONS.any (fun ext => ext.isSuffixOf ((pySplit '#' path).headD [])) = true) ∧
    ((add_archive s properties path).1 = none →
      ∃ hdfs, (add_archive s properties path).2 =
        { archives := s.archives ++ [path], hdfs_archives := s.hdfs_archives ++ [hdfs] }) ∧
    ((add_archive s properties path).1 ≠ none → (add_archive s properties path).2 = s) := by
  have hsp := split_by_hash_sign_spec path
  by_cases h01 : path.count '#' ≤ 1
  · have hsplit : split_by_hash_sign path = .ok (pySplit '#' path) := by
      rcases Nat.le_one_iff_eq_zero_or_eq_one.mp h01 with h0 | h1
      · rw [hsp.1 h0, pySplit_of_count_zero '#' path h0]
      · exact (hsp.2.1 h1).1
    by_cases hext :
        ALLOWED_EXTENSIONS.any (fun ext => ext.isSuffixOf ((pySplit '#' path).headD [])) = true
    · obtain ⟨v, hv⟩ := preprocess_ok path properties hkey
      have hcheck : check_archive_extensions path = .ok (pySplit '#' path) := by
        unfold check_archive_extensions
        simp only [hsplit]
        rw [if_pos hext]
      have hrun : add_archive s properties path =
          (none, { archives := s.archives ++ [path],
                   hdfs_archives := s.hdfs_archives ++ [v] }) := by
        unfold add_archive
        rw [hcheck, hv]
      rw [hrun]
      exact ⟨⟨fun _ => ⟨h01, hext⟩, fun _ => rfl⟩, fun _ => ⟨v, rfl⟩,
        fun hne => absurd rfl hne⟩
    · have hcheck : check_archive_extensions path =
          .error "The path cannot be accepted as an archive" := by
        unfold check_archive_extensions
        simp only [hsplit]
        rw [if_neg hext]
      have hrun : add_archive s properties path =
          (some "The path cannot be accepted as an archive", s) := by
        unfold add_archive
        rw [hcheck]
      rw [hrun]
      exact ⟨⟨fun h => Option.noConfusion h, fun hrh => absurd hrh.2 hext⟩,
        fun h => Option.noConfusion h, fun _ => rfl⟩
  · have h2 : 2 ≤ path.count '#' := by omega
    have hsplit := hsp.2.2.1 h2
    have hcheck : check_archive_extensions path =
        .error "There should be maximum one hash in the path" := by
      unfold check_archive_extensions
      simp only [hsplit]
    have hrun : add_archive s properties path =
        (some "There should be maximum one hash in the path", s) := by
      unfold add_archive
      rw [hcheck]
    rw [hrun]
    exact ⟨⟨fun h => Option.noConfusion h, fun hrh => absurd hrh.1 h01⟩,
      fun h => Option.noConfusion h, fun _ => rfl⟩

/-- Witness for C9 (amended): with the nameNode property present, adding the
archive /a.jar succeeds. -/
theorem add_archive_spec_witness :
    (add_archive ⟨[], []⟩ [("nameNode", ['h', 'd', 'f', 's'])]
      ['/', 'a', '.', 'j', 'a', 'r']).1 = none :=
  ((add_archive_spec ⟨[], []⟩ [("nameNode", ['h', 'd', 'f', 's'])]
      ['/', 'a', '.', 'j', 'a', 'r'] (by decide)).1).mpr (by decide)

/-! ## XML element model -/

/-- An XML element: a tag, the attribute mapping, and the child elements. -/
inductive Element where
  | elem (tag : String) (attrib : List (String × String)) (children : List Element)

def Element.tag : Element → String
  | .elem t _ _ => t

def Element.attrib : Element → List (String × String)
  | .elem _ a _ => a

def Element.children : Element → List Element
  | .elem _ _ c => c

/-- Modelled from the spec: `xml_utils.find_nodes_by_tag` (utils/xml_utils.py
is not under src).  Per its uses in prepare_extractors.py and
prepare_decorator_mapper.py it returns the direct children of the element
that bear the given tag. -/
def find_nodes_by_tag (root : Element) (tag : String) : List Element :=
  root.children.filter (fun c => c.tag = tag)

/-- Python attribute access `node.attrib[key]`: a missing attribute raises a
KeyError. -/
def attribGet (e : Element) (key : String) : Except String String :=
  match e.attrib.lookup key with
  | some v => .ok v
  | none => .error ("KeyError: " ++ key)

/-! ## Prepare path extraction (utils/prepare_extractors.py) -/

/-- Loop of `extract_paths_from_prepare_node` over the children of the first
prepare node: the normalized path of a child tagged delete is appended to the
delete list, and the path of any other child is appended to the mkdir list.
The path normalization (`el_utils.normalize_path`, not under src) is passed
in as a function. -/
def prepare_paths_loop (normalize : String → String) :
    List Element → List String × List String → Except String (List String × List String)
  | [], acc => .ok acc
  | node :: rest, acc =>
    match attribGet node "path" with
    | .error e => .error e
    | .ok path =>
      if node.tag = "delete" then
        prepare_paths_loop normalize rest (acc.1 ++ [normalize path], acc.2)
      else
        prepare_paths_loop normalize rest (acc.1, acc.2 ++ [normalize path])

/-- Function `extract_paths_from_prepare_node`: when a prepare node exists
only the first one is read, and its children are folded in document order. -/
def extract_paths_from_prepare_node (normalize : String → String) (oozie_node : Element) :
    Except String (List String × List String) :=
  match find_nodes_by_tag oozie_node "prepare" with
  | [] => .ok ([], [])
  | pnode :: _ => prepare_paths_loop normalize pnode.children ([], [])

theorem prepare_paths_loop_eq (normalize : String → String) (children : List Element)
    (acc : List String × List String)
    (h : ∀ c ∈ children, (c.attrib.lookup "path").isSome) :
    prepare_paths_loop normalize children acc =
      .ok (acc.1 ++ (children.filter (fun c => c.tag = "delete")).map
             (fun c => normalize ((c.attrib.lookup "path").getD "")),
           acc.2 ++ (children.filter (fun c => ¬ c.tag = "delete")).map
             (fun c => normalize ((c.attrib.lookup "path").getD ""))) := by
  induction children generalizing acc with
  | nil => simp [prepare_paths_loop]
  | cons c cs ih =>
    have hc := h c (List.mem_cons_self c cs)
    obtain ⟨p, hp⟩ := Option.isSome_iff_exists.mp hc
    have htail : ∀ x ∈ cs, (x.attrib.lookup "path").isSome :=
      fun x hx => h x (List.mem_cons_of_mem c hx)
    simp only [prepare_paths_loop, attribGet, hp]
    by_cases hd : c.tag = "delete"
    · rw [if_pos hd, ih _ htail]
      simp [List.filter_cons, hd, hp, List.append_assoc]
    · rw [if_neg hd, ih _ htail]
      simp [List.filter_cons, hd, hp, List.append_assoc]

/-- C10: `extract_paths_from_prepare_node` returns two empty lists when the
element has no prepare child, and otherwise inspects only the first prepare
child found: its children tagged delete contribute their normalized path
attributes, in document order, to the delete paths, and every other child,
regardless of its tag, contributes to the mkdir paths. -/
theorem extract_paths_from_prepare_node_spec (normalize : String → String)
    (oozie_node : Element) :
    (find_nodes_by_tag oozie_node "prepare" = [] →
      extract_paths_from_prepare_node normalize oozie_node = .ok ([], [])) ∧
    (∀ pnode rest, find_nodes_by_tag oozie_node "prepare" = pnode :: rest →
      (∀ c ∈ pnode.children, (c.attrib.lookup "path").isSome) →
      extract_paths_from_prepare_node normalize oozie_node =
        .ok ((pnode.children.filter (fun c => c.tag = "delete")).map
               (fun c => normalize ((c.attrib.lookup "path").getD "")),
             (pnode.children.filter (fun c => ¬ c.tag = "delete")).map
               (fun c => normalize ((c.attrib.lookup "path").getD "")))) := by
  constructor
  · intro hnone
    unfold extract_paths_from_prepare_node
    simp only [hnone]
  · intro pnode rest hfirst hattr
    unfold extract_paths_from_prepare_node
    simp only [hfirst]
    rw [prepare_paths_loop_eq normalize pnode.children ([], []) hattr]
    simp

/-- Example elements: an action node with one prepare child that holds one
delete entry and one chmod entry. -/
def exDelete : Element := .elem "delete" [("path", "/d1")] []

def exChmod : Element := .elem "chmod" [("path", "/m1")] []

def exPrepare : Element := .elem "prepare" [] [exDelete, exChmod]

def exDistcpNode : Element := .elem "distcp" [] [exPrepare]

/-- Witness for C10: on the example node, the delete list gets the delete
path and the chmod child lands in the mkdir list despite not being tagged
mkdir. -/
theorem extract_paths_from_prepare_node_spec_witness :
    extract_paths_from_prepare_node id exDistcpNode = .ok (["/d1"], ["/m1"]) := by
  have h := (extract_paths_from_prepare_node_spec id exDistcpNode).2 exPrepare []
    (by rfl) (by decide)
  rw [h]
  rfl

/-! ## Tasks and relations (converter primitives) -/

/-- Value stored in the template parameter mapping of a task: a string, a
string dictionary, or Python None. -/
inductive TemplateValue where
  | str (s : String)
  | strDict (d : List (String × String))
  | noneV
deriving DecidableEq

def TemplateValue.ofOption : Option String → TemplateValue
  | some s => .str s
  | none => .noneV

structure Task where
  task_id : String
  template_name : String
  trigger_rule : String
  template_params : List (String × TemplateValue)
deriving DecidableEq

structure Relation where
  from_task_id : String
  to_task_id : String
deriving DecidableEq

/-- Python dictionary lookup for the string-valued params mapping. -/
def paramGet (params : List (String × String)) (key : String) : Except String String :=
  match params.lookup key with
  | some v => .ok v
  | none => .error ("KeyError: " ++ key)

/-- Function `prepare_prepare_command` of mappers/prepare_decorator_mapper.py:
None when both path lists are empty, otherwise the prepare.sh invocation with
the cluster and region params (a missing param raises) and the optional -d
and -m arguments.  The shell quoting (`shlex.quote`) is passed in as a
function. -/
def prepare_prepare_command (quote : String → String)
    (delete_paths mkdir_paths : List String) (params : List (String × String)) :
    Except String (Option String) :=
  if delete_paths.isEmpty && mkdir_paths.isEmpty then .ok none
  else
    let delete := String.intercalate " " delete_paths
    let mkdir := String.intercalate " " mkdir_paths
    match paramGet params "dataproc_cluster" with
    | .error e => .error e
    | .ok cluster =>
      match paramGet params "gcp_region" with
      | .error e => .error e
      | .ok region =>
        let cmd0 := "$DAGS_FOLDER/../data/prepare.sh -c " ++ quote cluster
          ++ " -r " ++ quote region
        let cmd1 := if delete = "" then cmd0 else cmd0 ++ " -d " ++ delete
        let cmd2 := if mkdir = "" then cmd1 else cmd1 ++ " -m " ++ mkdir
        .ok (some cmd2)

/-- Modelled from the spec: `PrepareMixin.has_prepare`
(o2a/mappers/prepare_mixin.py is not under src).  A prepare specification is
present when the element has a prepare child; this is the same check as
`bool(xml_utils.find_nodes_by_tag(self.oozie_node, "prepare"))` performed by
the decorator in src. -/
def has_prepare (oozie_node : Element) : Bool :=
  !(find_nodes_by_tag oozie_node "prepare").isEmpty

/-- Modelled from the spec: `PrepareMixin.get_prepare_command`
(o2a/mappers/prepare_mixin.py is not under src).  Per section 9 of the spec
the prepare command is assembled from the extracted delete and mkdir paths of
the prepare element, the same assembly that `prepare_prepare_command`
performs. -/
def get_prepare_command (quote normalize : String → String)
    (oozie_node : Element) (params : List (String × String)) :
    Except String (Option String) :=
  match extract_paths_from_prepare_node normalize oozie_node with
  | .error e => .error e
  | .ok (delete_paths, mkdir_paths) =>
    prepare_prepare_command quote delete_paths mkdir_paths params

/-! ## DistCp mapper (o2a/mappers/distcp_mapper.py) -/

/-- State of a `DistCpMapper` after construction and `on_parse_node`: its
name, trigger rule, parsed configuration properties, source element, and
resolved params. -/
structure DistCpMapper where
  name : String
  trigger_rule : String
  properties : List (String × String)
  oozie_node : Element
  params : List (String × String)

/-- The distcp action task built by `DistCpMapper.to_tasks_and_relations`. -/
def DistCpMapper.actionTask (m : DistCpMapper) : Task :=
  { task_id := m.name, template_name := "distcp.tpl", trigger_rule := m.trigger_rule,
    template_params := [("properties", .strDict m.properties)] }

/-- Method `DistCpMapper.to_tasks_and_relations`: one distcp task; when the
node has a prepare element a prepare task is inserted at position zero and
one relation from the prepare task to the action task is created. -/
def DistCpMapper.to_tasks_and_relations (quote normalize : String → String)
    (m : DistCpMapper) : Except String (List Task × List Relation) :=
  if has_prepare m.oozie_node then
    match get_prepare_command quote normalize m.oozie_node m.params with
    | .error e => .error e
    | .ok cmd =>
      .ok ([{ task_id := m.name ++ "_prepare", template_name := "prepare.tpl",
              trigger_rule := m.trigger_rule,
              template_params := [("prepare_command", TemplateValue.ofOption cmd)] },
            m.actionTask],
           [{ from_task_id := m.name ++ "_prepare", to_task_id := m.name }])
  else .ok ([m.actionTask], [])

/-- C1: with a prepare child, a successful translation yields exactly the
two tasks name_prepare then name and the single relation between them; with
no prepare child it yields exactly the one action task and no relations. -/
theorem distcp_to_tasks_and_relations_spec (quote normalize : String → String)
    (m : DistCpMapper) :
    (has_prepare m.oozie_node = false →
      DistCpMapper.to_tasks_and_relations quote normalize m =
        .ok ([m.actionTask], [])) ∧
    (has_prepare m.oozie_node = true →
      ∀ tasks rels,
        DistCpMapper.to_tasks_and_relations quote normalize m = .ok (tasks, rels) →
        tasks.map Task.task_id = [m.name ++ "_prepare", m.name] ∧
        rels = [{ from_task_id := m.name ++ "_prepare", to_task_id := m.name }]) := by
  constructor
  · intro hfalse
    unfold DistCpMapper.to_tasks_and_relations
    simp [hfalse]
  · intro htrue tasks rels hok
    unfold DistCpMapper.to_tasks_and_relations at hok
    simp only [htrue, if_true] at hok
    cases hcmd : get_prepare_command quote normalize m.oozie_node m.params with
    | error e =>
      rw [hcmd] at hok
      exact absurd hok (by simp)
    | ok cmd =>
      rw [hcmd] at hok
      simp only [Except.ok.injEq, Prod.mk.injEq] at hok
      obtain ⟨h1, h2⟩ := hok
      subst h1
      subst h2
      exact ⟨by simp [DistCpMapper.actionTask], rfl⟩

/-- Example mapper: the distcp node of the unit test, carrying a prepare
element. -/
def exDistcpMapper : DistCpMapper :=
  { name := "distcp", trigger_rule := "all_success",
    properties := [("oozie.launcher.mapreduce.job.hdfs-servers", "nn1,nn2")],
    oozie_node := exDistcpNode,
    params := [("dataproc_cluster", "cluster"), ("gcp_region", "region")] }

def exDistcpTasks : List Task :=
  ((exDistcpMapper.to_tasks_and_relations id id).toOption.getD ([], [])).1

def exDistcpRels : List Relation :=
  ((exDistcpMapper.to_tasks_and_relations id id).toOption.getD ([], [])).2

/-- Witness for C1: on the prepare-bearing example node the translation
produces the task ids distcp_prepare, distcp and one relation between them. -/
theorem distcp_to_tasks_and_relations_spec_witness :
    exDistcpTasks.map Task.task_id = ["distcp" ++ "_prepare", "distcp"] ∧
    exDistcpRels = [{ from_task_id := "distcp" ++ "_prepare", to_task_id := "distcp" }] :=
  (distcp_to_tasks_and_relations_spec id id exDistcpMapper).2 (by rfl)
    exDistcpTasks exDistcpRels (by rfl)

/-! ## Prepare support decorator (mappers/prepare_decorator_mapper.py) -/

/-- Wrapper installed on `on_parse_node` by
`add_prepare_element_support_decorator`: after the original parse, when the
node has a prepare element the prepare-command attribute is set from the
extracted paths; otherwise the attribute keeps its previous value. -/
def wrapper_on_parse_node (quote normalize : String → String) (oozie_node : Element)
    (params : List (String × String)) (prepare_command : Option String) :
    Except String (Option String) :=
  if has_prepare oozie_node then
    match extract_paths_from_prepare_node normalize oozie_node with
    | .error e => .error e
    | .ok (delete_paths, mkdir_paths) =>
      prepare_prepare_command quote delete_paths mkdir_paths params
  else .ok prepare_command

/-- Wrapper installed on `convert_tasks_and_relations` by
`add_prepare_element_support_decorator`: when the stored prepare command is
truthy, a prepare task is inserted at position zero of the original task
list and one relation from it to the node task is appended to the original
relation list. -/
def wrapper_convert_tasks_and_relations (name trigger_rule : String)
    (prepare_command : Option String) (base : List Task × List Relation) :
    List Task × List Relation :=
  match prepare_command with
  | some cmd =>
    if cmd = "" then base
    else
      ({ task_id := name ++ "_prepare", template_name := "prepare.tpl",
         trigger_rule := trigger_rule,
         template_params := [("prepare_command", TemplateValue.str cmd)] } :: base.1,
       base.2 ++ [{ from_task_id := name ++ "_prepare", to_task_id := name }])
  | none => base

/-- Decorator-based translation pipeline applied to the distcp action task:
run the wrapped parse (initial prepare command None, as before any parse) to
obtain the prepare command, then wrap the action-specific result of the
original convert. -/
def decorated_distcp_translation (quote normalize : String → String)
    (m : DistCpMapper) : Except String (List Task × List Relation) :=
  match wrapper_on_parse_node quote normalize m.oozie_node m.params none with
  | .error e => .error e
  | .ok pc =>
    .ok (wrapper_convert_tasks_and_relations m.name m.trigger_rule pc
      ([m.actionTask], []))

theorem prepare_prepare_command_of_empty (quote : String → String)
    (delete_paths mkdir_paths : List String) (params : List (String × String))
    (h : prepare_prepare_command quote delete_paths mkdir_paths params = .ok none) :
    (delete_paths.isEmpty && mkdir_paths.isEmpty) = true := by
  by_cases he : (delete_paths.isEmpty && mkdir_paths.isEmpty) = true
  · exact he
  · exfalso
    unfold prepare_prepare_command at h
    rw [if_neg he] at h
    cases hc : paramGet params "dataproc_cluster" with
    | error e => rw [hc] at h; exact Except.noConfusion h
    | ok cluster =>
      rw [hc] at h
      cases hr : paramGet params "gcp_region" with
      | error e => rw [hr] at h; exact Except.noConfusion h
      | ok region =>
        rw [hr] at h
        simp at h

theorem prepare_prepare_command_ne_empty_string (quote : String → String)
    (delete_paths mkdir_paths : List String) (params : List (String × String))
    (cmd : String)
    (h : prepare_prepare_command quote delete_paths mkdir_paths params = .ok (some cmd)) :
    cmd ≠ "" := by
  unfold prepare_prepare_command at h
  by_cases he : (delete_paths.isEmpty && mkdir_paths.isEmpty) = true
  · rw [if_pos he] at h
    simp at h
  · rw [if_neg he] at h
    cases hc : paramGet params "dataproc_cluster" with
    | error e => rw [hc] at h; exact Except.noConfusion h
    | ok cluster =>
      rw [hc] at h
      cases hr : paramGet params "gcp_region" with
      | error e => rw [hr] at h; exact Except.noConfusion h
      | ok region =>
        rw [hr] at h
        simp only [Except.ok.injEq, Option.some.injEq] at h
        subst h
        intro hcmd
        have hlen := congrArg String.length hcmd
        have hbase : ("$DAGS_FOLDER/../data/prepare.sh -c " ++ quote cluster
            ++ " -r " ++ quote region).length =
            ("$DAGS_FOLDER/../data/prepare.sh -c ").length + (quote cluster).length
            + (" -r ").length + (quote region).length := by
          simp [String.length_append]
        have h35 : ("$DAGS_FOLDER/../data/prepare.sh -c ").length = 35 := by rfl
        by_cases hd : String.intercalate " " delete_paths = "" <;>
        by_cases hm : String.intercalate " " mkdir_paths = "" <;>
          simp [hd, hm, String.length_append, hbase, h35, String.length_empty] at hlen

/-- Example node whose prepare element has no children. -/
def exEmptyPrepare : Element := .elem "prepare" [] []

def exEmptyPrepareNode : Element := .elem "distcp" [] [exEmptyPrepare]

def exEmptyPrepareMapper : DistCpMapper :=
  { name := "distcp", trigger_rule := "all_success", properties := [],
    oozie_node := exEmptyPrepareNode,
    params := [("dataproc_cluster", "cluster"), ("gcp_region", "region")] }

/-- Counterexample to C6 as stated: on an action node whose prepare element
has no children both translations are defined, but the decorator-based one
emits no prepare task (the computed prepare command is None, which is falsy)
while the explicit DistCp composition, keyed on the mere presence of the
prepare element, emits one and one relation. -/
theorem prepare_equivalence_counterexample :
    decorated_distcp_translation id id exEmptyPrepareMapper =
      .ok ([exEmptyPrepareMapper.actionTask], []) ∧
    (exEmptyPrepareMapper.to_tasks_and_relations id id).map (fun tr => tr.1.length) =
      .ok 2 ∧
    decorated_distcp_translation id id exEmptyPrepareMapper ≠
      exEmptyPrepareMapper.to_tasks_and_relations id id := by
  refine ⟨rfl, rfl, ?_⟩
  intro heq
  have h1 : (decorated_distcp_translation id id exEmptyPrepareMapper).map
      (fun tr => tr.1.length) = .ok 1 := rfl
  have h2 : (exEmptyPrepareMapper.to_tasks_and_relations id id).map
      (fun tr => tr.1.length) = .ok 2 := rfl
  rw [heq, h2] at h1
  exact absurd (Except.ok.inj h1) (by decide)

/-- C6 amended: on every action node whose prepare element has at least one
child (each carrying a path attribute), the decorator-based translation and
the explicit DistCp composition agree exactly: same prepare task (same id,
template, trigger rule, and prepare command) prepended at position zero,
same single relation from name_prepare to name, and the same error when the
prepare command cannot be built. -/
theorem prepare_equivalence_amended (quote normalize : String → String)
    (m : DistCpMapper) (pnode : Element) (rest : List Element)
    (hfirst : find_nodes_by_tag m.oozie_node "prepare" = pnode :: rest)
    (hne : pnode.children ≠ [])
    (hattr : ∀ c ∈ pnode.children, (c.attrib.lookup "path").isSome) :
    decorated_distcp_translation quote normalize m =
      DistCpMapper.to_tasks_and_relations quote normalize m := by
  have hext := (extract_paths_from_prepare_node_spec normalize m.oozie_node).2
    pnode rest hfirst hattr
  have hhp : has_prepare m.oozie_node = true := by
    unfold has_prepare
    rw [hfirst]
    rfl
  unfold decorated_distcp_translation wrapper_on_parse_node
  unfold DistCpMapper.to_tasks_and_relations get_prepare_command
  simp only [hhp, if_true, hext]
  cases hcmd : prepare_prepare_command quote
      ((pnode.children.filter (fun c => c.tag = "delete")).map
        (fun c => normalize ((c.attrib.lookup "path").getD "")))
      ((pnode.children.filter (fun c => ¬ c.tag = "delete")).map
        (fun c => normalize ((c.attrib.lookup "path").getD ""))) m.params with
  | error e => rfl
  | ok pc =>
    cases pc with
    | none =>
      exfalso
      have hempty := prepare_prepare_command_of_empty _ _ _ _ hcmd
      obtain ⟨c, cs, hcc⟩ := List.exists_cons_of_ne_nil hne
      rw [hcc] at hempty
      by_cases hd : c.tag = "delete" <;>
        simp [List.filter_cons, hd] at hempty
    | some cmd =>
      have hnz := prepare_prepare_command_ne_empty_string _ _ _ _ _ hcmd
      simp [wrapper_convert_tasks_and_relations, hnz, TemplateValue.ofOption]

/-- Witness for C6 (amended): on the prepare-bearing example node the two
translations produce identical results. -/
theorem prepare_equivalence_amended_witness :
    decorated_distcp_translation id id exDistcpMapper =
      DistCpMapper.to_tasks_and_relations id id exDistcpMapper :=
  prepare_equivalence_amended id id exDistcpMapper exPrepare [] (by rfl)
    (fun h => List.noConfusion h) (by decide)

/-! ## Workflow graph model (spec sections 3, 4.2, 4.3)

The parser, the trigger-rule compiler and the start mapper
(converter/parser.py, o2a/mappers/start_mapper.py) are not under src; the
graph model and the passes over it are modelled from the specification. -/

/-- Kind a relation is tagged with at creation time. -/
inductive EdgeKind where
  | normal
  | error
  | structural
deriving DecidableEq

/-- A relation of the workflow graph, tagged with its edge kind. -/
structure WRelation where
  from_task_id : String
  to_task_id : String
  kind : EdgeKind
deriving DecidableEq

/-- The four trigger policies of the specification. -/
inductive TriggerPolicy where
  | all_upstream_succeeded
  | any_upstream_failed
  | all_upstream_done
  | any_upstream_succeeded_or_skipped
deriving DecidableEq

structure WTask where
  task_id : String
  trigger : TriggerPolicy
deriving DecidableEq

/-- A node of the graph model: its translated tasks and whether it is a
non-executable marker (for example the start node). -/
structure WNode where
  tasks : List WTask
  isMarker : Bool
deriving DecidableEq

/-- The workflow: nodes by name plus the relation set. -/
structure Workflow where
  nodes : List (String × WNode)
  relations : List WRelation
deriving DecidableEq

/-- Kinds of the relations entering the named node. -/
def incomingKinds (rels : List WRelation) (name : String) : List EdgeKind :=
  (rels.filter (fun r => r.to_task_id = name)).map WRelation.kind

/-- Modelled from the spec (section 4.2): the priority rules mapping the
incoming edge kinds of a node, plus the structural
decision-convergence judgement, to its trigger policy. -/
def policyOf (kinds : List EdgeKind) (decisionConvergence : Bool) : TriggerPolicy :=
  if kinds.isEmpty then .all_upstream_succeeded
  else if kinds.all (fun k => k = EdgeKind.error) then .any_upstream_failed
  else if kinds.any (fun k => k = EdgeKind.normal) &&
          kinds.any (fun k => k = EdgeKind.error) then .all_upstream_done
  else if kinds.all (fun k => k = EdgeKind.normal) && decisionConvergence then
    .any_upstream_succeeded_or_skipped
  else .all_upstream_succeeded

def setTrigger (p : TriggerPolicy) (t : WTask) : WTask := { t with trigger := p }

/-- Modelled from the spec: `assignTriggerPolicies`
(`OozieParser.update_trigger_rules`, converter/parser.py is not under src).
Every task of every node receives the policy computed from the node's
incoming relation kinds; `conv` is the structural decision-convergence
judgement of rule 4, a function of the relation set only. -/
def assignTriggerPolicies (conv : List WRelation → String → Bool) (w : Workflow) :
    Workflow :=
  { w with nodes := w.nodes.map (fun pr =>
      let p := policyOf (incomingKinds w.relations pr.1) (conv w.relations pr.1)
      (pr.1, { pr.2 with tasks := pr.2.tasks.map (setTrigger p) })) }

/-- C3: the trigger-rule assignment is idempotent: with no structural change
between the runs, running it twice assigns every node exactly the policy a
single run assigns. -/
theorem assignTriggerPolicies_idempotent (conv : List WRelation → String → Bool)
    (w : Workflow) :
    assignTriggerPolicies conv (assignTriggerPolicies conv w) =
      assignTriggerPolicies conv w := by
  unfold assignTriggerPolicies
  simp only [List.map_map]
  refine congrArg (fun ns => Workflow.mk ns w.relations) ?_
  apply List.map_congr_left
  intro pr _
  simp [Function.comp, List.map_map, setTrigger]

/-- Modelled from the spec (section 4.3): elision of one marker node.  The
node is removed, every relation incident to it is deleted, and each relation
that pointed into the marker is replaced by structural relations from its
source to the successors of the marker. -/
def elideNode (name : String) (w : Workflow) : Workflow :=
  let succs := (w.relations.filter (fun r => r.from_task_id = name)).map
    WRelation.to_task_id
  let kept := w.relations.filter
    (fun r => ¬ r.from_task_id = name ∧ ¬ r.to_task_id = name)
  let incoming := w.relations.filter (fun r => r.to_task_id = name)
  let rewired := incoming.flatMap (fun r => succs.map
    (fun s => { from_task_id := r.from_task_id, to_task_id := s,
                kind := EdgeKind.structural }))
  { nodes := w.nodes.filter (fun pr => ¬ pr.1 = name),
    relations := kept ++ rewired }

/-- Modelled from the spec: `StartMapper.on_parse_finish`
(o2a/mappers/start_mapper.py is not under src): the start marker is elided
from the workflow. -/
def start_on_parse_finish (name : String) (w : Workflow) : Workflow :=
  elideNode name w

/-- Modelled from the spec: `StartMapper.to_tasks_and_relations`
(o2a/mappers/start_mapper.py is not under src): the start marker contributes
no tasks and no relations. -/
def start_to_tasks_and_relations : List WTask × List WRelation := ([], [])

theorem lookup_filter_ne (name : String) (k : String) (l : List (String × WNode))
    (hk : k ≠ name) :
    (l.filter (fun pr => ¬ pr.1 = name)).lookup k = l.lookup k := by
  induction l with
  | nil => rfl
  | cons pr rest ih =>
    by_cases hp : pr.1 = name
    · have hkp : (k == pr.1) = false := by
        simp [hp]
        exact hk
      rw [List.filter_cons_of_neg (by simp [hp])]
      rw [List.lookup_cons]
      simp only [hkp]
      exact ih
    · rw [List.filter_cons_of_pos (by simp [hp])]
      rw [List.lookup_cons, List.lookup_cons]
      cases hkq : k == pr.1 with
      | true => rfl
      | false => exact ih

/-- C2: after `on_parse_finish` of the start mapper, the start name is gone
from the node map, no remaining relation has the start name as an endpoint,
every other node is unchanged, and the start marker itself contributes zero
tasks and zero relations.  (The hypothesis excludes a self-loop at the start
node, which the data model already forbids.) -/
theorem start_on_parse_finish_spec (name : String) (w : Workflow)
    (hself : ∀ r ∈ w.relations,
      ¬ (r.from_task_id = name ∧ r.to_task_id = name)) :
    ((start_on_parse_finish name w).nodes.lookup name = none) ∧
    (∀ r ∈ (start_on_parse_finish name w).relations,
      r.from_task_id ≠ name ∧ r.to_task_id ≠ name) ∧
    (∀ k, k ≠ name →
      (start_on_parse_finish name w).nodes.lookup k = w.nodes.lookup k) ∧
    start_to_tasks_and_relations = ([], []) := by
  refine ⟨?_, ?_, ?_, rfl⟩
  · unfold start_on_parse_finish elideNode
    simp only
    induction w.nodes with
    | nil => rfl
    | cons pr rest ih =>
      by_cases hp : pr.1 = name
      · rw [List.filter_cons_of_neg (by simp [hp])]
        exact ih
      · rw [List.filter_cons_of_pos (by simp [hp])]
        rw [List.lookup_cons]
        have : (name == pr.1) = false := by
          simp
          exact fun hh => hp hh.symm
        simp only [this]
        exact ih
  · intro r hr
    unfold start_on_parse_finish elideNode at hr
    simp only [List.mem_append] at hr
    cases hr with
    | inl hkept =>
      rw [List.mem_filter] at hkept
      have := hkept.2
      simp at this
      exact ⟨this.1, this.2⟩
    | inr hrew =>
      rw [List.mem_flatMap] at hrew
      obtain ⟨rin, hrin, hmem⟩ := hrew
      rw [List.mem_filter] at hrin
      have hto : rin.to_task_id = name := by
        have := hrin.2
        simpa using this
      rw [List.mem_map] at hmem
      obtain ⟨s, hs, hsr⟩ := hmem
      rw [List.mem_map] at hs
      obtain ⟨rout, hrout, hsucc⟩ := hs
      rw [List.mem_filter] at hrout
      have hfrom : rout.from_task_id = name := by
        have := hrout.2
        simpa using this
      subst hsr
      constructor
      · intro hcontra
        have hf2 : rin.from_task_id = name := hcontra
        exact hself rin hrin.1 ⟨hf2, hto⟩
      · intro hcontra
        have hs2 : s = name := hcontra
        exact hself rout hrout.1 ⟨hfrom, hsucc.trans hs2⟩
  · intro k hk
    unfold start_on_parse_finish elideNode
    exact lookup_filter_ne name k w.nodes hk

/-- Example workflow of the start-mapper unit test: the start node
first_task, a second node, and one relation between them. -/
def exStartNode : WNode := { tasks := [], isMarker := true }

def exSecondTask : WTask :=
  { task_id := "second_task", trigger := .all_upstream_succeeded }

def exSecondNode : WNode := { tasks := [exSecondTask], isMarker := false }

def exStartRel : WRelation :=
  { from_task_id := "first_task", to_task_id := "second_task", kind := .normal }

def exStartWorkflow : Workflow :=
  { nodes := [("first_task", exStartNode), ("second_task", exSecondNode)],
    relations := [exStartRel] }

/-- Witness for C2: eliding first_task from the example workflow removes it
from the node map. -/
theorem start_on_parse_finish_spec_witness :
    ((start_on_parse_finish "first_task" exStartWorkflow).nodes.lookup
      "first_task" = none) ∧
    (start_on_parse_finish "first_task" exStartWorkflow).nodes.lookup
      "second_task" = exStartWorkflow.nodes.lookup "second_task" :=
  ⟨(start_on_parse_finish_spec "first_task" exStartWorkflow (by decide)).1,
   (start_on_parse_finish_spec "first_task" exStartWorkflow (by decide)).2.2.1
     "second_task" (by decide)⟩

/-- Modelled from the spec (section 4.3): the marker elision pass removes
every marker node in turn. -/
def elideMarkers (w : Workflow) : Workflow :=
  ((w.nodes.filter (fun pr => pr.2.isMarker)).map Prod.fst).foldl
    (fun acc name => elideNode name acc) w

/-- Modelled from the spec (section 2, control flow): policies are assigned
on the parsed graph, markers are elided, and the policies of the nodes whose
incoming relations changed are recomputed (section 4.3); recomputing over
all remaining nodes subsumes that. -/
def compileWorkflow (conv : List WRelation → String → Bool) (w : Workflow) : Workflow :=
  assignTriggerPolicies conv (elideMarkers (assignTriggerPolicies conv w))

/-- The four trigger policies of the specification. -/
def fourPolicies : List TriggerPolicy :=
  [.all_upstream_succeeded, .any_upstream_failed, .all_upstream_done,
   .any_upstream_succeeded_or_skipped]

theorem policyOf_mem_fourPolicies (kinds : List EdgeKind) (c : Bool) :
    policyOf kinds c ∈ fourPolicies := by
  unfold policyOf fourPolicies
  repeat' split
  all_goals simp

/-- C7: in a compiled workflow every task of every node carries exactly the
one policy computed by the trigger-rule pass from the incoming edge kinds of
its node in the elided graph, and that policy is one of the four defined
values. -/
theorem compileWorkflow_policy_totality (conv : List WRelation → String → Bool)
    (w : Workflow) (pr : String × WNode)
    (hpr : pr ∈ (compileWorkflow conv w).nodes) (t : WTask) (ht : t ∈ pr.2.tasks) :
    t.trigger = policyOf
      (incomingKinds (elideMarkers (assignTriggerPolicies conv w)).relations pr.1)
      (conv (elideMarkers (assignTriggerPolicies conv w)).relations pr.1) ∧
    t.trigger ∈ fourPolicies := by
  unfold compileWorkflow assignTriggerPolicies at hpr
  simp only [List.mem_map] at hpr
  obtain ⟨pr0, _, hpr0⟩ := hpr
  subst hpr0
  simp only [List.mem_map] at ht
  obtain ⟨t0, _, ht0⟩ := ht
  subst ht0
  exact ⟨rfl, policyOf_mem_fourPolicies _ _⟩

/-- Example workflow for C7: one ordinary node fed by the elided start
marker. -/
def exC7Workflow : Workflow :=
  { nodes := [("start", exStartNode), ("job", exSecondNode)],
    relations := [{ from_task_id := "start", to_task_id := "job", kind := .normal }] }

/-- Witness for C7: the single task of the compiled example workflow carries
the computed policy, which is among the four defined values. -/
theorem compileWorkflow_policy_totality_witness :
    exSecondTask.trigger ∈ fourPolicies :=
  (compileWorkflow_policy_totality (fun _ _ => false) exC7Workflow
    ("job", { tasks := [exSecondTask], isMarker := false }) (by decide)
    exSecondTask (by decide)).2

/-! ## Converter orchestration (converter/oozie_converter.py) -/

/-- File-system state seen by the converter: the contents of the output
directory (None when the directory does not exist) and the content of the
output DAG file (None when no file has been written). -/
structure FsState where
  output_directory : Option (List String)
  dag_file : Option String
deriving DecidableEq

/-- Outcomes of the collaborating phases of one `convert` run: whether
parsing and trigger-rule assignment succeed, and the outcome of each
sequential write performed by `write_dag` (imports, params, DAG header,
operators, relations). -/
structure ConvertEnv where
  parse_workflow : Except String Unit
  update_trigger_rules : Except String Unit
  write_pieces : List (Except String String)

/-- Method `OozieConverter._recreate_output_directory`: `shutil.rmtree` plus
`os.makedirs` leaves an empty directory, deleting any previous contents and
any previously written DAG file. -/
def recreate_output_directory (_fs : FsState) : FsState :=
  { output_directory := some [], dag_file := none }

/-- Sequential writes into the open DAG file: each successful step appends
its text; the first failing step aborts, leaving the content written so
far. -/
def run_writes (acc : String) : List (Except String String) → Option String × String
  | [] => (none, acc)
  | .ok s :: rest => run_writes (acc ++ s) rest
  | .error e :: _ => (some e, acc)

/-- Method `OozieConverter.create_dag_file`: opening the file for writing
truncates it to empty, then `write_dag` runs its writes in order. -/
def create_dag_file (env : ConvertEnv) (fs : FsState) : Option String × FsState :=
  let written := run_writes "" env.write_pieces
  (written.1, { fs with dag_file := some written.2 })

/-- Method `OozieConverter.convert`: parse the workflow, read the parsed
relations, dependencies and operators, update the trigger rules, recreate
the output directory, and write the DAG file.  The error of the first
failing phase is returned unmodified, next to the file-system state at that
moment. -/
def convert (env : ConvertEnv) (fs : FsState) : Option String × FsState :=
  match env.parse_workflow with
  | .error e => (some e, fs)
  | .ok _ =>
    match env.update_trigger_rules with
    | .error e => (some e, fs)
    | .ok _ => create_dag_file env (recreate_output_directory fs)

/-- First error among the write steps of `write_dag`. -/
def firstWriteError : List (Except String String) → Option String
  | [] => none
  | .ok _ :: rest => firstWriteError rest
  | .error e :: _ => some e

theorem run_writes_fst (acc : String) (pieces : List (Except String String)) :
    (run_writes acc pieces).1 = firstWriteError pieces := by
  induction pieces generalizing acc with
  | nil => rfl
  | cons p rest ih =>
    cases p with
    | ok s => exact ih (acc ++ s)
    | error e => rfl

/-- Environment in which the emission phase fails halfway through its
writes. -/
def exFailEnv : ConvertEnv :=
  { parse_workflow := .ok (), update_trigger_rules := .ok (),
    write_pieces := [.ok "import x", .error "disk full"] }

/-- File-system state before the failing run: the output directory holds a
previously generated DAG. -/
def exPriorFs : FsState :=
  { output_directory := some ["old_dag.py"], dag_file := none }

/-- Counterexample to C5 as stated: when a write during emission fails, the
error is surfaced, but the prior contents of the output directory have
already been deleted (the directory was recreated before emission) and a
partially written DAG file remains. -/
theorem convert_atomicity_counterexample :
    (convert exFailEnv exPriorFs).1 = some "disk full" ∧
    (convert exFailEnv exPriorFs).2.output_directory = some [] ∧
    (convert exFailEnv exPriorFs).2.output_directory ≠ exPriorFs.output_directory ∧
    (convert exFailEnv exPriorFs).2.dag_file = some "import x" := by
  decide

/-- C5 amended: a failure in parsing or trigger-rule assignment is surfaced
to the caller unmodified and leaves the file system (prior output directory
and absent DAG file) untouched; a failure during emission is surfaced
unmodified as well, but only after the output directory has been recreated,
its prior contents deleted, and possibly with a partially written DAG file
in place. -/
theorem convert_error_spec (env : ConvertEnv) (fs : FsState) :
    (∀ e, env.parse_workflow = .error e → convert env fs = (some e, fs)) ∧
    (∀ e, env.parse_workflow = .ok () → env.update_trigger_rules = .error e →
      convert env fs = (some e, fs)) ∧
    (env.parse_workflow = .ok () → env.update_trigger_rules = .ok () →
      (convert env fs).1 = firstWriteError env.write_pieces ∧
      (convert env fs).2.output_directory = some []) := by
  refine ⟨?_, ?_, ?_⟩
  · intro e he
    unfold convert
    rw [he]
  · intro e hp ht
    unfold convert
    rw [hp, ht]
  · intro hp ht
    unfold convert
    rw [hp, ht]
    exact ⟨run_writes_fst "" env.write_pieces, rfl⟩

/-- Environment in which parsing fails. -/
def exParseFailEnv : ConvertEnv :=
  { parse_workflow := .error "invalid workflow", update_trigger_rules := .ok (),
    write_pieces := [] }

/-- Witness for C5 (amended): a parse failure is surfaced unmodified and the
prior file-system state is untouched. -/
theorem convert_error_spec_witness :
    convert exParseFailEnv exPriorFs = (some "invalid workflow", exPriorFs) :=
  (convert_error_spec exParseFailEnv exPriorFs).1 "invalid workflow" rfl

/-! ## Required imports (o2a/mappers/distcp_mapper.py) -/

/-- Method `DistCpMapper.required_imports`: the body of the method is `pass`
(marked TODO in the source), so despite its `Set[str]` return annotation the
method returns Python None, modelled as `none`: no set of import strings. -/
def distcp_required_imports : Option (List String) := none

/-- C4 (code-bug evidence): `DistCpMapper.required_imports` returns None
rather than a set of import strings, so neither the validity of each import
statement nor the union taken by the dependency collector is defined for
it. -/
theorem distcp_required_imports_is_none :
    distcp_required_imports = none ∧
    ∀ imports, distcp_required_imports ≠ some imports :=
  ⟨rfl, fun _ h => Option.noConfusion h⟩

end O2A
